import Mathlib

/-!
Verification development for the `misc-python-scripts` file-manipulation
utilities (`finder.py` and `sampler.py`).  The Python functions are shallowly
embedded as executable Lean definitions: rows are lists of strings, Python
values that can reach the CSV writer are modelled by `PyVal`, datetimes and
timedeltas are modelled by their offsets in seconds (an order- and
addition-preserving representation of the `datetime` values used), and
fallible Python code (exceptions) is modelled with `Option`.
-/

/-- A Python value as it can appear in a sequence handed to the CSV writer or
produced by projecting a sequence: a string cell, a parsed datetime
(represented by its offset in seconds), or a Python list of values. -/
inductive PyVal where
  | str : String → PyVal
  | dt : Int → PyVal
  | lst : List PyVal → PyVal

/-- Split a character list at every occurrence of `sep`, keeping empty
pieces, accumulating the current piece in reverse. -/
def splitOnCharAux (sep : Char) : List Char → List Char → List String
  | [], acc => [String.mk acc.reverse]
  | c :: cs, acc =>
      if c = sep then String.mk acc.reverse :: splitOnCharAux sep cs []
      else splitOnCharAux sep cs (c :: acc)

/-- Python `s.split(sep)` for a one-character separator (the scripts only
split on `","`, `"-"` and `":"`): empty pieces are kept and the empty
string splits to `[""]`. -/
def splitOnChar (sep : Char) (s : String) : List String :=
  splitOnCharAux sep s.toList []

/-- Python `c in s` for a one-character needle. -/
def containsChar (c : Char) (s : String) : Bool :=
  s.toList.contains c

/-- Python `s[:-1]`: drop the final character (the empty string stays
empty). -/
def pyDropLastChar (s : String) : String :=
  String.mk s.toList.dropLast

/-- Value of a decimal digit character, `none` on a non-digit. -/
def digitVal (c : Char) : Option Nat :=
  if c.isDigit then some (c.toNat - 48) else none

/-- Accumulate decimal digits; `none` on any non-digit character. -/
def parseNatAux : List Char → Nat → Option Nat
  | [], acc => some acc
  | c :: cs, acc => do
      let d ← digitVal c
      parseNatAux cs (10 * acc + d)

/-- Python `int(s)` for an optional minus sign followed by decimal digits,
which is the only shape the scripts ever feed it; `none` models the
`ValueError` raised on anything else (for example the empty string). -/
def pyInt (s : String) : Option Int :=
  match s.toList with
  | [] => none
  | '-' :: [] => none
  | '-' :: cs => (parseNatAux cs 0).map (fun n => -(n : Int))
  | cs => (parseNatAux cs 0).map (fun n => (n : Int))

/-- Python list indexing `l[i]`: negative indices count from the end; `none`
models the `IndexError` raised when the effective index is out of range. -/
def pyIndex (l : List α) (i : Int) : Option α :=
  let j := if i < 0 then (l.length : Int) + i else i
  if 0 ≤ j then l.get? j.toNat else none

/-- Clamp one bound of a Python slice to `[0, len]`, counting negative
values from the end, exactly as CPython normalises slice bounds. -/
def pySliceIndex (len : Nat) (i : Int) : Nat :=
  if i < 0 then ((len : Int) + i).toNat else min i.toNat len

/-- Python slicing `l[a:b]` with step 1: end-exclusive, out-of-range clipped,
never an error. -/
def pySlice (l : List α) (a b : Int) : List α :=
  let s := pySliceIndex l.length a
  let e := pySliceIndex l.length b
  (l.drop s).take (e - s)

/-- `build_file_glob` (identical in finder.py lines 12-35 and sampler.py
lines 12-35): start from `"*"`, replace it with `prefix + "*"` when a prefix
is given, then append `date + "*"`, the postfix and the extension when
present. -/
def build_file_glob (pre file_date post extension : Option String) : String :=
  let base := "*"
  let base := match pre with
    | some p => p ++ "*"
    | none => base
  let base := match file_date with
    | some d => base ++ d ++ "*"
    | none => base
  let base := match post with
    | some p => base ++ p
    | none => base
  let base := match extension with
    | some e => base ++ e
    | none => base
  base

/-- sampler.py `map_column_spec_to_row` (lines 111-133): for each
comma-separated token, if it contains `-` split it into two ints and
`append` the slice `row[start:end]` (one nested element!), else `append`
the cell at the int index.  The row is an arbitrary Python sequence (the
main loop also passes `(timestamp, row)` tuples), hence `List PyVal`.
`none` models the exceptions `int()` and indexing can raise. -/
def map_column_spec_to_row (column_spec : String) (row : List PyVal) : Option (List PyVal) :=
  (splitOnChar ',' column_spec).foldlM (fun new_row token =>
    if containsChar '-' token then
      match splitOnChar '-' token with
      | [a, b] => do
          let range_start ← pyInt a
          let range_end ← pyInt b
          some (new_row ++ [PyVal.lst (pySlice row range_start range_end)])
      | _ => none
    else do
      let idx ← pyInt token
      let cell ← pyIndex row idx
      some (new_row ++ [cell])) []

/-- finder.py `__main__` inline projection loop (lines 313-322 for the
header, lines 329-340 for each match row): range tokens are split into two
ints and the slice is `extend`ed (flattened); a token without `-` executes
`new_match_row.append(match_row[column_spec])`, indexing the list with the
*string* token itself, which raises `TypeError` — modelled as `none`. -/
def finderProjectRow (output_columns : String) (row : List String) : Option (List String) :=
  (splitOnChar ',' output_columns).foldlM (fun new_row token =>
    if containsChar '-' token then
      match splitOnChar '-' token with
      | [a, b] => do
          let range_start ← pyInt a
          let range_end ← pyInt b
          some (new_row ++ pySlice row range_start range_end)
      | _ => none
    else
      none) []

/-- One data row of finder.py `match_file` (lines 71-78): for every
`(column, condition)` pair in order, fetch `row[column]` (a possible
`IndexError`) and, when the predicate holds, append the row to the
matches.  Returns the list of appends this row contributes. -/
def matchRowStep (row : List String) : List (Int × (String → Bool)) → Option (List (List String))
  | [] => some []
  | c :: rest => do
      let data ← pyIndex row c.1
      let more ← matchRowStep row rest
      some (if c.2 data then row :: more else more)

/-- The data-row loop of finder.py `match_file` (lines 66-78), after the
header has been peeled off. -/
def matchRows (conds : List (Int × (String → Bool))) : List (List String) → Option (List (List String))
  | [] => some []
  | row :: rest => do
      let hits ← matchRowStep row conds
      let more ← matchRows conds rest
      some (hits ++ more)

/-- finder.py `match_file` (lines 49-83): with falsy match conditions
(`None` or the empty list) return empty header and matches at once; else
the first row is the header and every further row is tested against every
condition, appending the row once per condition whose predicate holds. -/
def match_file (reader : List (List String)) (match_conditions : Option (List (Int × (String → Bool)))) :
    Option (List String × List (List String)) :=
  let conds := match_conditions.getD []
  if conds.isEmpty then some ([], [])
  else
    match reader with
    | [] => some ([], [])
    | header :: rest => (matchRows conds rest).map (fun ms => (header, ms))

/-- Whether a match condition holds on a row: the cell at the condition's
column exists and the predicate returns true on it. -/
def condHolds (row : List String) (c : Int × (String → Bool)) : Bool :=
  match pyIndex row c.1 with
  | some data => c.2 data
  | none => false

/-- sampler.py lines 72-79, the two consecutive `if`s of the sampling loop
(there is no `else` between them in the source): append the row as first
sample when none is taken yet, then append it again when the last sample's
timestamp plus the delta is strictly below the row's timestamp.  After the
first `if` the list is never empty, so `samples[-1]` cannot fail; the
`none` branch of `getLast?` is unreachable and returns the list unchanged. -/
def sampleStep (timestamp_delta : Int) (samples : List (Int × List String))
    (timestamp : Int) (row : List String) : List (Int × List String) :=
  let samples1 := if samples.isEmpty then samples ++ [(timestamp, row)] else samples
  match samples1.getLast? with
  | some lastSample =>
      if lastSample.1 + timestamp_delta < timestamp then samples1 ++ [(timestamp, row)] else samples1
  | none => samples1

/-- sampler.py line 70, `row[-1] = row[-1][:-1]`: drop the final character
of the last cell; `none` models the `IndexError` on an empty row. -/
def stripLastCell (row : List String) : Option (List String) :=
  match row.getLast? with
  | none => none
  | some lastCell => some (row.dropLast ++ [pyDropLastChar lastCell])

/-- The data-row loop of sampler.py `sample_file` (lines 61-81) after the
header row: fetch the timestamp cell, parse it (`strptime`, represented by
the `parse` function the timestamp format denotes), strip the last cell's
final character, then run the two sampling `if`s.  Any exception is
`none`. -/
def sampleRows (parse : String → Option Int) (timestamp_column timestamp_delta : Int) :
    List (List String) → List (Int × List String) → Option (List (Int × List String))
  | [], samples => some samples
  | row :: rest, samples => do
      let timestamp_cell ← pyIndex row timestamp_column
      let timestamp ← parse timestamp_cell
      let row2 ← stripLastCell row
      sampleRows parse timestamp_column timestamp_delta rest
        (sampleStep timestamp_delta samples timestamp row2)

/-- sampler.py `sample_file` (lines 49-82): the first row is the header,
the rest are sampled starting from an empty sample list.  The result pairs
the header with the list of `(timestamp, row)` samples. -/
def sample_file (parse : String → Option Int) (timestamp_column timestamp_delta : Int)
    (reader : List (List String)) : Option (List String × List (Int × List String)) :=
  match reader with
  | [] => some ([], [])
  | header :: rest =>
      (sampleRows parse timestamp_column timestamp_delta rest []).map
        (fun samples => (header, samples))

/-- Two decimal digits (or one), as matched by the `strptime` field
directives `%H`, `%M` and `%S`. -/
def parseNat2 (s : String) : Option Nat :=
  match s.toList with
  | [c] => digitVal c
  | [c1, c2] => do
      let d1 ← digitVal c1
      let d2 ← digitVal c2
      some (10 * d1 + d2)
  | _ => none

/-- `datetime.strptime(s, "%H:%M:%S")`, represented by the number of
seconds into the day (the fixed default date 1900-01-01 makes comparison
and timedelta addition agree with plain second arithmetic).  Trailing or
malformed text fails, exactly as `strptime` raises `ValueError`. -/
def parseHMS (s : String) : Option Int :=
  match splitOnChar ':' s with
  | [hs, ms, ss] => do
      let h ← parseNat2 hs
      let m ← parseNat2 ms
      let sec ← parseNat2 ss
      if h ≤ 23 ∧ m ≤ 59 ∧ sec ≤ 61 then some ((3600 * h + 60 * m + sec : Nat) : Int)
      else none
  | _ => none

/-- A Python tuple `(timestamp, row)` as the CSV writer receives it: a
sequence of two values, the datetime and the list of cells. -/
def tupleToPy (s : Int × List String) : List PyVal :=
  [PyVal.dt s.1, PyVal.lst (s.2.map PyVal.str)]

/-- State threaded through sampler.py's per-file loop (lines 292-344):
the header of the first processed file, the header-written flag, and the
records written to the output file so far (each record is the sequence of
values handed to `writer.writerow`). -/
structure SamplerState where
  csv_header : List String
  header_written : Bool
  records : List (List PyVal)

/-- One iteration of sampler.py's per-file loop (lines 304-344): run
`sample_file`, write the (optionally projected) header once, then write
each element of `file_samples` — which is the `(timestamp, row)` tuple —
optionally projected by `map_column_spec_to_row`.  The header-mismatch
warning only prints and changes no state. -/
def samplerProcessFile (parse : String → Option Int) (timestamp_column timestamp_delta : Int)
    (output_columns : Option String) (st : SamplerState) (file : List (List String)) :
    Option SamplerState := do
  let fh_fs ← sample_file parse timestamp_column timestamp_delta file
  let file_header := fh_fs.1
  let file_samples := fh_fs.2
  let st ←
    if st.header_written then some st
    else do
      let headerRecord ←
        match output_columns with
        | some spec => map_column_spec_to_row spec (file_header.map PyVal.str)
        | none => some (file_header.map PyVal.str)
      some { csv_header := file_header, header_written := true,
             records := st.records ++ [headerRecord] }
  let newRecords ← file_samples.foldlM (fun recs sample_row => do
      let record ←
        match output_columns with
        | some spec => map_column_spec_to_row spec (tupleToPy sample_row)
        | none => some (tupleToPy sample_row)
      some (recs ++ [record])) st.records
  some { st with records := newRecords }

/-- sampler.py's whole output phase (lines 286-344) over the located
files, returning every record written to the output file. -/
def samplerRun (parse : String → Option Int) (timestamp_column timestamp_delta : Int)
    (output_columns : Option String) (files : List (List (List String))) :
    Option (List (List PyVal)) := do
  let final ← files.foldlM (samplerProcessFile parse timestamp_column timestamp_delta output_columns)
    { csv_header := [], header_written := false, records := [] }
  some final.records

/-- The `sample_file` results of sampler.py's per-file loop in file order;
each call starts from a fresh empty sample list, and a failure in any file
aborts the run. -/
def perFileSamples (parse : String → Option Int) (timestamp_column timestamp_delta : Int) :
    List (List (List String)) → Option (List (List String × List (Int × List String)))
  | [] => some []
  | file :: rest => do
      let s ← sample_file parse timestamp_column timestamp_delta file
      let more ← perFileSamples parse timestamp_column timestamp_delta rest
      some (s :: more)

/-- The day-by-day inclusive date-range loop shared by finder.py lines
225-237 and sampler.py lines 267-279, on dates represented as day
numbers: `while start <= end: append; start += 1 day`. -/
def dateRange (start_date end_date : Int) : List Int :=
  if h : start_date ≤ end_date then
    start_date :: dateRange (start_date + 1) end_date
  else []
termination_by (end_date + 1 - start_date).toNat
decreasing_by
  simp_wf
  omega

/-- finder.py's output phase (lines 304-342): write the header, projected
through the inline loop when an output column spec is given, then every
accumulated match row, likewise optionally projected.  Returns the records
written; `none` models an uncaught exception. -/
def finderWriteOutput (output_columns : Option String) (csv_header : List String)
    (csv_matches : List (List String)) : Option (List (List String)) := do
  let headerRow ←
    match output_columns with
    | some spec => finderProjectRow spec csv_header
    | none => some csv_header
  let rows ← csv_matches.mapM (fun r =>
    match output_columns with
    | some spec => finderProjectRow spec r
    | none => some r)
  some (headerRow :: rows)

/-- The sampling step never returns an empty list: when no sample exists
yet the row is appended unconditionally. -/
theorem sampleStep_ne_nil (timestamp_delta : Int) (samples : List (Int × List String))
    (t : Int) (r : List String) : sampleStep timestamp_delta samples t r ≠ [] := by
  unfold sampleStep
  cases samples with
  | nil =>
      simp only [List.isEmpty_nil, if_true, List.nil_append]
      cases hgl : ([(t, r)] : List (Int × List String)).getLast? with
      | none => simp at hgl
      | some l => by_cases hlt : l.1 + timestamp_delta < t <;> simp [hlt]
  | cons a as =>
      simp only [List.isEmpty_cons, Bool.false_eq_true, if_false]
      cases hgl : (a :: as).getLast? with
      | none => simp at hgl
      | some l =>
          by_cases hlt : l.1 + timestamp_delta < t <;> simp [hlt]

/-- The sampling step preserves the head of a non-empty sample list, and
seeds the head with the current row on an empty one. -/
theorem sampleStep_head (timestamp_delta : Int) (samples : List (Int × List String))
    (t : Int) (r : List String) :
    (sampleStep timestamp_delta samples t r).head? =
      if samples.isEmpty then some (t, r) else samples.head? := by
  unfold sampleStep
  cases samples with
  | nil =>
      simp only [List.isEmpty_nil, if_true, List.nil_append]
      cases hgl : ([(t, r)] : List (Int × List String)).getLast? with
      | none => simp at hgl
      | some l => by_cases hlt : l.1 + timestamp_delta < t <;> simp [hlt]
  | cons a as =>
      simp only [List.isEmpty_cons, Bool.false_eq_true, if_false]
      cases hgl : (a :: as).getLast? with
      | none => simp at hgl
      | some l => by_cases hlt : l.1 + timestamp_delta < t <;> simp [hlt]

/-- The sampling loop started on a non-empty sample list never changes the
head: later rows are only ever appended. -/
theorem sampleRows_head (parse : String → Option Int) (timestamp_column timestamp_delta : Int) :
    ∀ (rows : List (List String)) (samples out : List (Int × List String)),
      samples ≠ [] →
      sampleRows parse timestamp_column timestamp_delta rows samples = some out →
      out.head? = samples.head? := by
  intro rows
  induction rows with
  | nil =>
      intro samples out _ h
      rw [sampleRows] at h
      cases h
      rfl
  | cons row rest ih =>
      intro samples out hne h
      rw [sampleRows] at h
      cases hcell : pyIndex row timestamp_column with
      | none =>
          simp only [hcell, Option.bind_eq_bind, Option.none_bind] at h
          exact Option.noConfusion h
      | some cell =>
          simp only [hcell, Option.bind_eq_bind, Option.some_bind] at h
          cases ht : parse cell with
          | none =>
              simp only [ht, Option.bind_eq_bind, Option.none_bind] at h
              exact Option.noConfusion h
          | some t =>
              simp only [ht, Option.bind_eq_bind, Option.some_bind] at h
              cases hr : stripLastCell row with
              | none =>
                  simp only [hr, Option.bind_eq_bind, Option.none_bind] at h
                  exact Option.noConfusion h
              | some r2 =>
                  simp only [hr, Option.bind_eq_bind, Option.some_bind] at h
                  have hstep := ih (sampleStep timestamp_delta samples t r2) out
                    (sampleStep_ne_nil timestamp_delta samples t r2) h
                  rw [hstep, sampleStep_head]
                  cases samples with
                  | nil => exact absurd rfl hne
                  | cons a as => rfl

/-- With a nonnegative delta one sampling step keeps the sample
timestamps strictly increasing and appends at most one entry: the freshly
appended first sample can never satisfy the boundary test against
itself. -/
theorem sampleStep_keeps_chain {timestamp_delta : Int} (h0 : 0 ≤ timestamp_delta)
    (samples : List (Int × List String)) (t : Int) (r : List String)
    (hc : samples.Chain' (fun a b => a.1 < b.1)) :
    (sampleStep timestamp_delta samples t r).Chain' (fun a b => a.1 < b.1) ∧
      (sampleStep timestamp_delta samples t r).length ≤ samples.length + 1 := by
  unfold sampleStep
  cases samples with
  | nil =>
      have hno : ¬ (t + timestamp_delta < t) := by omega
      simp [hno]
  | cons a as =>
      simp only [List.isEmpty_cons, Bool.false_eq_true, if_false]
      cases hgl : (a :: as).getLast? with
      | none => simp at hgl
      | some l =>
          by_cases hlt : l.1 + timestamp_delta < t
          · simp only [hlt, if_true]
            constructor
            · rw [List.chain'_append]
              refine ⟨hc, List.chain'_singleton _, ?_⟩
              intro x hx y hy
              rw [hgl] at hx
              simp only [Option.mem_def, Option.some_inj] at hx
              simp only [List.head?_cons, Option.mem_def, Option.some_inj] at hy
              subst hx
              subst hy
              simp only
              omega
            · simp
          · simp only [hlt, if_false]
            exact ⟨hc, by simp⟩

/-- With a nonnegative delta the sampling loop keeps the sample
timestamps strictly increasing and adds at most one sample per data
row. -/
theorem sampleRows_chain (parse : String → Option Int) (timestamp_column : Int)
    {timestamp_delta : Int} (h0 : 0 ≤ timestamp_delta) :
    ∀ (rows : List (List String)) (samples out : List (Int × List String)),
      samples.Chain' (fun a b => a.1 < b.1) →
      sampleRows parse timestamp_column timestamp_delta rows samples = some out →
      out.Chain' (fun a b => a.1 < b.1) ∧ out.length ≤ samples.length + rows.length := by
  intro rows
  induction rows with
  | nil =>
      intro samples out hc h
      rw [sampleRows] at h
      cases h
      exact ⟨hc, by simp⟩
  | cons row rest ih =>
      intro samples out hc h
      rw [sampleRows] at h
      cases hcell : pyIndex row timestamp_column with
      | none =>
          simp only [hcell, Option.bind_eq_bind, Option.none_bind] at h
          exact Option.noConfusion h
      | some cell =>
          simp only [hcell, Option.bind_eq_bind, Option.some_bind] at h
          cases ht : parse cell with
          | none =>
              simp only [ht, Option.bind_eq_bind, Option.none_bind] at h
              exact Option.noConfusion h
          | some t =>
              simp only [ht, Option.bind_eq_bind, Option.some_bind] at h
              cases hr : stripLastCell row with
              | none =>
                  simp only [hr, Option.bind_eq_bind, Option.none_bind] at h
                  exact Option.noConfusion h
              | some r2 =>
                  simp only [hr, Option.bind_eq_bind, Option.some_bind] at h
                  obtain ⟨hc2, hlen2⟩ := sampleStep_keeps_chain h0 samples t r2 hc
                  obtain ⟨hco, hlo⟩ := ih (sampleStep timestamp_delta samples t r2) out hc2 h
                  refine ⟨hco, ?_⟩
                  simp only [List.length_cons]
                  omega

/-- When every condition's column is in range for the row, the per-row
matcher loop succeeds and appends the row once per condition whose
predicate holds on its cell. -/
theorem matchRowStep_replicate (row : List String) :
    ∀ conds : List (Int × (String → Bool)),
      (∀ c ∈ conds, (pyIndex row c.1).isSome) →
      matchRowStep row conds = some (List.replicate (conds.countP (condHolds row)) row) := by
  intro conds
  induction conds with
  | nil => intro _; rfl
  | cons c rest ih =>
      intro hok
      have hc : (pyIndex row c.1).isSome = true := hok c (by simp)
      obtain ⟨data, hdata⟩ := Option.isSome_iff_exists.mp hc
      rw [matchRowStep]
      simp only [hdata, Option.bind_eq_bind, Option.some_bind,
        ih (fun c2 hc2 => hok c2 (by simp [hc2]))]
      have hch : condHolds row c = c.2 data := by
        rw [condHolds, hdata]
      rw [List.countP_cons, hch]
      by_cases hcd : c.2 data
      · simp [hcd, List.replicate_succ]
      · simp [hcd]

/-- Row-level characterisation of the matcher loop: in encounter order,
each row contributes one copy of itself per condition that holds on it. -/
theorem matchRows_replicate (conds : List (Int × (String → Bool))) :
    ∀ rows : List (List String),
      (∀ row ∈ rows, ∀ c ∈ conds, (pyIndex row c.1).isSome) →
      matchRows conds rows =
        some (rows.flatMap (fun row => List.replicate (conds.countP (condHolds row)) row)) := by
  intro rows
  induction rows with
  | nil => intro _; rfl
  | cons row rest ih =>
      intro hok
      rw [matchRows]
      simp only [matchRowStep_replicate row conds (hok row (by simp)),
        ih (fun r hr c hc => hok r (by simp [hr]) c hc),
        Option.bind_eq_bind, Option.some_bind, List.flatMap_cons]

/-- C1: refuted by the code.  Running the sampler's output phase on a file
with header `h1,h2` and data row `10:00:00,a!` writes, after the header,
the `(timestamp, row)` tuple as a two-field record — the parsed timestamp
is part of the output — instead of the sampled row's cells. -/
theorem sampler_output_record_is_timestamp_row_pair :
    samplerRun parseHMS 0 900 none [[["h1", "h2"], ["10:00:00", "a!"]]] =
      some [[PyVal.str "h1", PyVal.str "h2"],
        [PyVal.dt 36000, PyVal.lst [PyVal.str "10:00:00", PyVal.str "a"]]] ∧
    [PyVal.dt 36000, PyVal.lst [PyVal.str "10:00:00", PyVal.str "a"]] ≠
      [PyVal.str "10:00:00", PyVal.str "a"] := by
  refine ⟨rfl, ?_⟩
  intro h
  injection h with h1 _
  exact PyVal.noConfusion h1

/-- C2: refuted by the code.  `map_column_spec_to_row` with the range
token `1-3` on the row `a,b,c,d` appends the slice as a single nested
element, so the output has length 1 instead of the 2 flattened cells the
docstring and spec promise; the finder's inline range loop, by contrast,
does flatten the slice. -/
theorem projector_range_token_not_flattened :
    map_column_spec_to_row "1-3" [PyVal.str "a", PyVal.str "b", PyVal.str "c", PyVal.str "d"] =
      some [PyVal.lst [PyVal.str "b", PyVal.str "c"]] ∧
    (map_column_spec_to_row "1-3"
        [PyVal.str "a", PyVal.str "b", PyVal.str "c", PyVal.str "d"]).map List.length =
      some 1 ∧
    finderProjectRow "1-3" ["a", "b", "c", "d"] = some ["b", "c"] :=
  ⟨rfl, rfl, rfl⟩

/-- C7: with an absent (`None`) or empty condition list, `match_file`
returns an empty header and empty matches for every row sequence, without
inspecting any row. -/
theorem matcher_empty_conditions_short_circuit (rows : List (List String)) :
    match_file rows none = some ([], []) ∧ match_file rows (some []) = some ([], []) :=
  ⟨rfl, rfl⟩

/-- C8: the glob builder concatenates prefix, date, postfix and extension
in that fixed order: all fragments absent gives `"*"`, the P/20240101/.zip
example gives `"P*20240101*.zip"`, and with all four fragments present the
result is exactly their wildcard-separated concatenation. -/
theorem glob_builder_concatenation :
    build_file_glob none none none none = "*" ∧
    build_file_glob (some "P") (some "20240101") none (some ".zip") = "P*20240101*.zip" ∧
    ∀ p d q e : String,
      build_file_glob (some p) (some d) (some q) (some e) = p ++ "*" ++ d ++ "*" ++ q ++ e :=
  ⟨rfl, rfl, fun _ _ _ _ => rfl⟩

/-- C9: refuted by the finder's code.  Its inline projection of the spec
`0,1` against the row `a,b` raises `TypeError` (the list is indexed with
the string token itself), while the sampler's `map_column_spec_to_row`
does return the row unchanged. -/
theorem finder_single_index_projection_type_error :
    finderProjectRow "0,1" ["a", "b"] = none ∧
    map_column_spec_to_row "0,1" [PyVal.str "a", PyVal.str "b"] =
      some [PyVal.str "a", PyVal.str "b"] :=
  ⟨rfl, rfl⟩

/-- C10: with the start date strictly after the end date the computed date
list is empty; zero files means the sampler writes nothing and finishes,
and the finder writes just its (empty) header when no output columns are
given — but with the output column spec `0` the finder's header projection
raises `TypeError` instead of completing. -/
theorem empty_date_range_completes :
    dateRange 20240102 20240101 = [] ∧
    samplerRun parseHMS 1 900 none [] = some [] ∧
    finderWriteOutput none [] [] = some [[]] ∧
    finderWriteOutput (some "0") [] [] = none := by
  refine ⟨?_, rfl, rfl, rfl⟩
  rw [dateRange]
  norm_num

/-- C3, counterexample: with two conditions that both hold on the data row
`X`, `match_file` appends the row twice — not "exactly once" as the claim
states; the matches list counts it twice. -/
theorem matcher_counts_row_twice_for_two_conditions :
    (match_file [["h"], ["X"]]
        (some [((0 : Int), fun v => v == "X"), ((0 : Int), fun v => v == "X")])).map
      (fun p => p.2.count ["X"]) = some 2 ∧ (some 2 : Option Nat) ≠ some 1 :=
  ⟨rfl, by simp⟩

/-- C4, counterexample: with the (CLI-reachable) negative delta
`-1:00:00` = -3600 s, the first data row satisfies the boundary test
against itself right after being taken as the first sample — the two
`if`s have no `else` between them — so it is sampled twice. -/
theorem sampler_negative_delta_duplicates_first_row :
    sample_file parseHMS 0 (-3600) [["h", "x"], ["10:00:00", "a#"]] =
      some (["h", "x"], [(36000, ["10:00:00", "a"]), (36000, ["10:00:00", "a"])]) ∧
    ¬ ([((36000 : Int), ["10:00:00", "a"]), ((36000 : Int), ["10:00:00", "a"])] :
        List (Int × List String)).Nodup :=
  ⟨rfl, by simp⟩

/-- C5: once a sample exists, a step of the sampling loop appends the row
exactly when the last sample's timestamp plus the delta is strictly less
than the row's timestamp; and the worked example — delta 00:15:00, format
%H:%M:%S, column 0, rows at 10:00:00, 10:10:00, 10:16:00, 10:20:00,
10:35:01 each with a junk trailing character on the last cell — samples
exactly the rows at 10:00:00, 10:16:00 and 10:35:01. -/
theorem sampler_strict_boundary_example :
    (∀ (timestamp_delta : Int) (samples : List (Int × List String))
        (lastSample : Int × List String) (t : Int) (row : List String),
        samples.getLast? = some lastSample →
        (sampleStep timestamp_delta samples t row = samples ++ [(t, row)] ↔
          lastSample.1 + timestamp_delta < t)) ∧
    sample_file parseHMS 0 900
        [["ts", "v"], ["10:00:00", "a#"], ["10:10:00", "b#"], ["10:16:00", "c#"],
         ["10:20:00", "d#"], ["10:35:01", "e#"]] =
      some (["ts", "v"],
        [(36000, ["10:00:00", "a"]), (36960, ["10:16:00", "c"]), (38101, ["10:35:01", "e"])]) := by
  constructor
  · intro timestamp_delta samples lastSample t row h
    have hne : samples ≠ [] := by
      intro hs
      rw [hs] at h
      exact Option.noConfusion h
    have hempty : samples.isEmpty = false := by
      cases samples with
      | nil => exact absurd rfl hne
      | cons a as => rfl
    unfold sampleStep
    simp only [hempty, Bool.false_eq_true, if_false, h]
    by_cases hlt : lastSample.1 + timestamp_delta < t
    · simp [hlt]
    · simp only [hlt, if_false, iff_false]
      intro heq
      have hlen := congrArg List.length heq
      simp at hlen
  · rfl

/-- Witness for the strict-boundary rule at a concrete state: with the
sample taken at 10:00:00 and delta 15 min, the step on the 10:16:00 row
appends it exactly because 36000 + 900 < 36960. -/
theorem sampler_strict_boundary_example_witness :
    sampleStep 900 [((36000 : Int), ["10:00:00", "a"])] 36960 ["10:16:00", "c"] =
        [((36000 : Int), ["10:00:00", "a"])] ++ [((36960 : Int), ["10:16:00", "c"])] ↔
      (36000 : Int) + 900 < 36960 :=
  sampler_strict_boundary_example.1 900 [((36000 : Int), ["10:00:00", "a"])]
    ((36000 : Int), ["10:00:00", "a"]) 36960 ["10:16:00", "c"] rfl

/-- C3, amended: for a non-empty condition list whose columns are in range
for every data row, `match_file` includes each non-header row once per
condition whose predicate returns true on the cell at that condition's
column — hence at least once exactly when some condition matches (logical
OR) and not at all otherwise — in original encounter order. -/
theorem matcher_appends_once_per_true_condition
    (conds : List (Int × (String → Bool))) (header : List String)
    (rows : List (List String)) (hne : conds ≠ [])
    (hok : ∀ row ∈ rows, ∀ c ∈ conds, (pyIndex row c.1).isSome) :
    match_file (header :: rows) (some conds) =
      some (header,
        rows.flatMap (fun row => List.replicate (conds.countP (condHolds row)) row)) := by
  have hempty : conds.isEmpty = false := by
    cases conds with
    | nil => exact absurd rfl hne
    | cons a as => rfl
  unfold match_file
  simp only [Option.getD_some, hempty, Bool.false_eq_true, if_false,
    matchRows_replicate conds rows hok, Option.map_some']

/-- Witness: the single CLI-style condition "column 0 equals X" on rows
`X` and `Y` matches exactly the row `X`, once. -/
theorem matcher_appends_once_per_true_condition_witness :
    match_file [["h"], ["X"], ["Y"]] (some [((0 : Int), fun v => v == "X")]) =
      some (["h"], [["X"]]) :=
  matcher_appends_once_per_true_condition [((0 : Int), fun v => v == "X")] ["h"]
    [["X"], ["Y"]] (by simp)
    (by
      intro row hr c hc
      simp only [List.mem_cons, List.not_mem_nil, or_false, List.mem_singleton] at hr hc
      subst hc
      rcases hr with h1 | h1 <;> subst h1 <;> rfl)

/-- C4, amended: for every input file and every *nonnegative* timestamp
delta, a successful run of `sample_file` takes each data row at most once:
the samples' timestamps are strictly increasing, so no `(timestamp, row)`
entry repeats, and there are no more samples than data rows. -/
theorem sampler_nonneg_delta_takes_rows_at_most_once (parse : String → Option Int)
    (timestamp_column timestamp_delta : Int) (reader : List (List String))
    (header : List String) (samples : List (Int × List String))
    (h0 : 0 ≤ timestamp_delta)
    (hrun : sample_file parse timestamp_column timestamp_delta reader = some (header, samples)) :
    samples.Nodup ∧ samples.length ≤ reader.length - 1 := by
  cases reader with
  | nil =>
      rw [sample_file] at hrun
      cases hrun
      simp
  | cons hd rest =>
      rw [sample_file] at hrun
      cases hs : sampleRows parse timestamp_column timestamp_delta rest [] with
      | none =>
          rw [hs] at hrun
          exact Option.noConfusion hrun
      | some out =>
          rw [hs] at hrun
          simp only [Option.map_some'] at hrun
          cases hrun
          obtain ⟨hchain, hlen⟩ :=
            sampleRows_chain parse timestamp_column h0 rest [] samples List.chain'_nil hs
          constructor
          · haveI : IsTrans (Int × List String) (fun a b => a.1 < b.1) :=
              ⟨fun a b c hab hbc => lt_trans hab hbc⟩
            have hp : samples.Pairwise (fun a b => a.1 < b.1) :=
              List.chain'_iff_pairwise.mp hchain
            exact hp.imp fun hab heq => absurd (heq ▸ hab) (lt_irrefl _)
          · simpa using hlen

/-- Witness: the C5 example run with delta 900 s has pairwise distinct
samples, no more of them than its five data rows. -/
theorem sampler_nonneg_delta_takes_rows_at_most_once_witness :
    ([((36000 : Int), ["10:00:00", "a"]), ((36960 : Int), ["10:16:00", "c"]),
        ((38101 : Int), ["10:35:01", "e"])] : List (Int × List String)).Nodup ∧
      ([((36000 : Int), ["10:00:00", "a"]), ((36960 : Int), ["10:16:00", "c"]),
          ((38101 : Int), ["10:35:01", "e"])] : List (Int × List String)).length ≤
        ([["ts", "v"], ["10:00:00", "a#"], ["10:10:00", "b#"], ["10:16:00", "c#"],
            ["10:20:00", "d#"], ["10:35:01", "e#"]] : List (List String)).length - 1 :=
  sampler_nonneg_delta_takes_rows_at_most_once parseHMS 0 900
    [["ts", "v"], ["10:00:00", "a#"], ["10:10:00", "b#"], ["10:16:00", "c#"],
      ["10:20:00", "d#"], ["10:35:01", "e#"]]
    ["ts", "v"]
    [((36000 : Int), ["10:00:00", "a"]), ((36960 : Int), ["10:16:00", "c"]),
      ((38101 : Int), ["10:35:01", "e"])]
    (by norm_num) rfl

/-- C6: the sampler's baseline resets per file.  In a two-file run the
second file's `sample_file` result is exactly `sample_file` of that file
alone — identical whatever the first file contains — and the second
file's first data row is always its first sample (its parsed timestamp
and stripped row head the sample list), even when that timestamp lies
within the delta of the first file's last sample. -/
theorem sampler_resets_baseline_per_file (parse : String → Option Int)
    (timestamp_column timestamp_delta : Int)
    (fileA fileA2 fileB : List (List String))
    (outA outA2 : List (List String × List (Int × List String)))
    (hA : perFileSamples parse timestamp_column timestamp_delta [fileA, fileB] = some outA)
    (hA2 : perFileSamples parse timestamp_column timestamp_delta [fileA2, fileB] = some outA2)
    (headerB rowB : List String) (restB : List (List String))
    (hB : fileB = headerB :: rowB :: restB)
    (hb : List String) (sb : List (Int × List String))
    (hres : sample_file parse timestamp_column timestamp_delta fileB = some (hb, sb)) :
    outA.get? 1 = some (hb, sb) ∧ outA2.get? 1 = some (hb, sb) ∧
      ∃ cell t rowB2, pyIndex rowB timestamp_column = some cell ∧ parse cell = some t ∧
        stripLastCell rowB = some rowB2 ∧ sb.head? = some (t, rowB2) := by
  have hget : ∀ (fileX : List (List String)) (out : List (List String × List (Int × List String))),
      perFileSamples parse timestamp_column timestamp_delta [fileX, fileB] = some out →
      out.get? 1 = some (hb, sb) := by
    intro fileX out h
    rw [perFileSamples] at h
    cases hx : sample_file parse timestamp_column timestamp_delta fileX with
    | none =>
        simp only [hx, Option.bind_eq_bind, Option.none_bind] at h
        exact Option.noConfusion h
    | some sx =>
        simp only [hx, perFileSamples, hres, Option.bind_eq_bind, Option.some_bind] at h
        cases h
        rfl
  refine ⟨hget fileA outA hA, hget fileA2 outA2 hA2, ?_⟩
  subst hB
  rw [sample_file] at hres
  cases hsr : sampleRows parse timestamp_column timestamp_delta (rowB :: restB) [] with
  | none =>
      rw [hsr] at hres
      exact Option.noConfusion hres
  | some out0 =>
      rw [hsr] at hres
      simp only [Option.map_some'] at hres
      cases hres
      rw [sampleRows] at hsr
      cases hcell : pyIndex rowB timestamp_column with
      | none =>
          simp only [hcell, Option.bind_eq_bind, Option.none_bind] at hsr
          exact Option.noConfusion hsr
      | some cell =>
          simp only [hcell, Option.bind_eq_bind, Option.some_bind] at hsr
          cases ht : parse cell with
          | none =>
              simp only [ht, Option.bind_eq_bind, Option.none_bind] at hsr
              exact Option.noConfusion hsr
          | some t =>
              simp only [ht, Option.bind_eq_bind, Option.some_bind] at hsr
              cases hstrip : stripLastCell rowB with
              | none =>
                  simp only [hstrip, Option.bind_eq_bind, Option.none_bind] at hsr
                  exact Option.noConfusion hsr
              | some rowB2 =>
                  simp only [hstrip, Option.bind_eq_bind, Option.some_bind] at hsr
                  refine ⟨cell, t, rowB2, rfl, ht, rfl, ?_⟩
                  have hh := sampleRows_head parse timestamp_column timestamp_delta restB
                    (sampleStep timestamp_delta [] t rowB2) sb
                    (sampleStep_ne_nil timestamp_delta [] t rowB2) hsr
                  rw [hh, sampleStep_head]
                  rfl

/-- Witness: file A samples 10:00:00; file B's first data row is at
10:05:00, within the 15-minute delta of 10:00:00, yet B's result in the
two-file run equals B's standalone result (and equals the result after an
empty file A), with the 10:05:00 row as its first sample. -/
theorem sampler_resets_baseline_per_file_witness :
    ([(["h", "x"], [((36000 : Int), ["10:00:00", "a"])]),
        (["h", "x"], [((36300 : Int), ["10:05:00", "b"])])] :
      List (List String × List (Int × List String))).get? 1 =
        some (["h", "x"], [((36300 : Int), ["10:05:00", "b"])]) ∧
    ([(([] : List String), ([] : List (Int × List String))),
        (["h", "x"], [((36300 : Int), ["10:05:00", "b"])])] :
      List (List String × List (Int × List String))).get? 1 =
        some (["h", "x"], [((36300 : Int), ["10:05:00", "b"])]) ∧
    ∃ cell t rowB2, pyIndex ["10:05:00", "b#"] (0 : Int) = some cell ∧
      parseHMS cell = some t ∧ stripLastCell ["10:05:00", "b#"] = some rowB2 ∧
      ([((36300 : Int), ["10:05:00", "b"])] : List (Int × List String)).head? =
        some (t, rowB2) :=
  sampler_resets_baseline_per_file parseHMS 0 900
    [["h", "x"], ["10:00:00", "a#"]] [] [["h", "x"], ["10:05:00", "b#"]]
    [(["h", "x"], [((36000 : Int), ["10:00:00", "a"])]),
      (["h", "x"], [((36300 : Int), ["10:05:00", "b"])])]
    [(([] : List String), ([] : List (Int × List String))),
      (["h", "x"], [((36300 : Int), ["10:05:00", "b"])])]
    rfl rfl ["h", "x"] ["10:05:00", "b#"] [] rfl
    ["h", "x"] [((36300 : Int), ["10:05:00", "b"])] rfl
